import Mathlib

/-!
Verification of the eris node-local resource-contention agent
(platform-resource-manager), shallowly embedded from the Python sources
in src/eris.  Python floats are modeled as rationals; Python exceptions
are modeled with Option/Except as noted on each definition.  The
definitions come first, the theorems follow.
-/

namespace Eris

/-- Resource contention type, from container.py (enum Contention). -/
inductive Contention where
  | UNKN
  | CPU_CYC
  | LLC
  | MEM_BW
  | TDP
deriving DecidableEq

/-- The fields of one live metrics snapshot (Container.metrics) that the
bin-based detection reads, from container.py. -/
structure Metrics where
  CPI : ℚ
  L3MPKI : ℚ
  MBL : ℚ
  MBR : ℚ

/-- One threshold bin, with the keys filled by eris.py init_threshbins
and read by Container.__detect_in_bin / Container.contention_detect. -/
structure Thresh where
  util_start : ℚ
  util_end : ℚ
  cpi : ℚ
  mpki : ℚ
  mb : ℚ

/-- Container.__detect_in_bin (container.py lines 125-149): classify one
metrics snapshot against one threshold bin; the prints are dropped. -/
def detect_in_bin (m : Metrics) (t : Thresh) : Option Contention :=
  if m.CPI > t.cpi then
    if m.L3MPKI > t.mpki then some Contention.LLC
    else if m.MBL + m.MBR < t.mb then some Contention.MEM_BW
    else some Contention.UNKN
  else none

/-- The per-container state read by Container.contention_detect
(container.py): the threshold bin list, the current utilization and the
current metrics snapshot. -/
structure ContainerState where
  thresh : List Thresh
  utils : ℚ
  metrics : Metrics

/-- The loop of Container.contention_detect (container.py lines 172-183),
carrying the previously inspected bin (self.thresh[i - 1]); the final
none is the implicit Python return after the loop (unreachable for a
nonempty bin list), and rest.isEmpty renders i == len(self.thresh) - 1. -/
def detect_walk (m : Metrics) (u : ℚ) : Option Thresh → List Thresh → Option Contention
  | _, [] => none
  | prev, t :: rest =>
    if u < t.util_start then
      match prev with
      | none => none
      | some p => detect_in_bin m p
    else if u < t.util_end ∨ rest.isEmpty = true then detect_in_bin m t
    else detect_walk m u (some t) rest

/-- Container.contention_detect (container.py lines 167-183). -/
def contention_detect (c : ContainerState) : Option Contention :=
  if c.thresh.isEmpty = true then none
  else detect_walk c.metrics c.utils none c.thresh

/-- Spec model (4.C step 2, "Walk bins in order"): once u is at or above
the first bin's util_start, the applicable bin is the first bin whose
util_start ≤ u < util_end; when u falls in a gap before the next bin's
util_start, the immediately preceding bin; the last bin is open above.
The walk keeps the invariant util_start cur ≤ u. -/
def spec_walk (u : ℚ) (cur : Thresh) : List Thresh → Thresh
  | [] => cur
  | b :: rest =>
    if u < cur.util_end then cur
    else if u < b.util_start then cur
    else spec_walk u b rest

/-- Spec model (4.C steps 1-2): the applicable bin of bin-based
detection; none for an empty bin list or for u strictly below the first
bin's util_start. -/
def spec_applicable_bin (u : ℚ) : List Thresh → Option Thresh
  | [] => none
  | b :: rest => if u < b.util_start then none else some (spec_walk u b rest)

/-- Resource.BUGET_LEV_FULL (mresource.py line 23). -/
def BUGET_LEV_FULL : ℤ := -1

/-- Resource.BUGET_LEV_MIN (mresource.py line 24). -/
def BUGET_LEV_MIN : ℤ := 0

/-- Resource.BUGET_LEV_MAX (mresource.py line 25). -/
def BUGET_LEV_MAX : ℤ := 20

/-- Resource.increase_level (mresource.py lines 43-48) acting on the
stored quota_level: add one, and wrap to BUGET_LEV_FULL when the sum
reaches BUGET_LEV_MAX. -/
def increase_level (l : ℤ) : ℤ :=
  if l + 1 = BUGET_LEV_MAX then BUGET_LEV_FULL else l + 1

/-- Joint state of a NaiveController (cyc_cnt) and its Resource
(quota_level), from naivectrl.py and mresource.py. -/
structure NCState where
  cyc_cnt : ℕ
  quota_level : ℤ
deriving DecidableEq

/-- NaiveController.update (naivectrl.py lines 32-60).  The result pairs
the new controller/resource state with the container list passed to
res.budgeting (none when budgeting is not invoked); res.update() is a
no-op on the abstract Resource and is dropped here. -/
def naive_update (cyc_thresh : ℕ) (be : List String) (s : NCState)
    (detected hold : Bool) : NCState × Option (List String) :=
  if detected then
    if s.quota_level = BUGET_LEV_MIN then ({ s with cyc_cnt := 0 }, none)
    else ({ cyc_cnt := 0, quota_level := BUGET_LEV_MIN }, some be)
  else
    if hold = true ∨ s.quota_level = BUGET_LEV_FULL then (s, none)
    else
      let cnt := s.cyc_cnt + 1
      if cnt ≥ cyc_thresh then
        ({ cyc_cnt := 0, quota_level := increase_level s.quota_level }, some be)
      else ({ s with cyc_cnt := cnt }, none)

/-- k successive controller updates with detected=false, hold=false
(the quiet cycles of naivectrl.py). -/
def nc_run (T : ℕ) (be : List String) : ℕ → NCState → NCState
  | 0, s => s
  | n + 1, s => nc_run T be n (naive_update T be s false false).1

/-- CpuQuota.CPU_QUOTA_DEFAULT (cpuquota.py line 27): the kernel value
for "no quota". -/
def CPU_QUOTA_DEFAULT : ℤ := -1

/-- CpuQuota.CPU_QUOTA_MIN (cpuquota.py line 28). -/
def CPU_QUOTA_MIN : ℤ := 1000

/-- CpuQuota.CPU_QUOTA_CORE (cpuquota.py line 29). -/
def CPU_QUOTA_CORE : ℚ := 100000

/-- CpuQuota.CPU_QUOTA_PERCENT (cpuquota.py line 30). -/
def CPU_QUOTA_PERCENT : ℚ := CPU_QUOTA_CORE / 100

/-- Python int() truncation toward zero, modeled on ℚ. -/
def pytrunc (q : ℚ) : ℤ := if 0 ≤ q then ⌊q⌋ else ⌈q⌉

/-- CpuQuota.update_max_sys_util (cpuquota.py lines 50-57): quota_max
from the monitored LC maximal utilization. -/
def quota_max (lc_max_util : ℚ) : ℚ := lc_max_util * CPU_QUOTA_PERCENT

/-- CpuQuota.update_max_sys_util (cpuquota.py line 57): quota_step. -/
def quota_step (lc_max_util : ℚ) : ℚ := quota_max lc_max_util / (BUGET_LEV_MAX : ℚ)

/-- CpuQuota.update (cpuquota.py lines 42-48): the platform cpu_quota
as a function of quota_step and the stored quota_level. -/
def cpu_quota_update (step : ℚ) (level : ℤ) : ℤ :=
  if level = BUGET_LEV_FULL then CPU_QUOTA_DEFAULT
  else if level = BUGET_LEV_MIN then CPU_QUOTA_MIN
  else level * pytrunc step

/-- Insertion step of the ascending sort used to model
pandas.Series.sort_values and numpy.sort. -/
def insertSorted (x : ℚ) : List ℚ → List ℚ
  | [] => [x]
  | y :: ys => if x ≤ y then x :: y :: ys else y :: insertSorted x ys

/-- Ascending sort of a sample (pandas.Series.sort_values /
numpy.sort). -/
def sortAsc (l : List ℚ) : List ℚ := l.foldr insertSorted []

/-- get_quartile (analyze.py lines 26-47): sort the sample, index the
quartiles positionally (Python int() of a float division, pytrunc) and
build the turkey fence.  Indexing out of range — which in Python raises
IndexError from iloc, e.g. on an empty sample — is modeled by none. -/
def get_quartile (thresh : ℚ) (mdf : List ℚ) (is_upper : Bool) : Option ℚ :=
  let s := sortAsc mdf
  let n : ℕ := s.length
  match s[(pytrunc ((n : ℚ) / 4)).toNat]?, s[(pytrunc ((n : ℚ) * 3 / 4)).toNat]? with
  | some quar1, some quar3 =>
    let iqr := quar3 - quar1
    let val := iqr * (thresh * 3 / 4 - 2 / 3)
    some (if is_upper then quar3 + val else quar1 - val)
  | _, _ => none

/-- Spec model (4.A strategy 1): sort, take q1 at 0-based index ⌊n/4⌋
and q3 at ⌊3n/4⌋, and return q3 + IQR·(3t/4 − 2/3) for the upper fence,
q1 − IQR·(3t/4 − 2/3) for the lower fence. -/
def spec_quartile (t : ℚ) (sample : List ℚ) (is_upper : Bool) : ℚ :=
  let s := sortAsc sample
  let n := sample.length
  let q1 := s.getD (n / 4) 0
  let q3 := s.getD (3 * n / 4) 0
  let iqr := q3 - q1
  if is_upper then q3 + iqr * (3 * t / 4 - 2 / 3)
  else q1 - iqr * (3 * t / 4 - 2 / 3)

/-- The Gaussian mixture model selected by GmmFense.__init__ (the
sklearn BIC search with fixed seed 1005 is an external fit); it carries
the fitted predict function, the mixture weights_, the means_, and the
per-cluster standard deviation math.sqrt(covariances_) that
__get_fense computes. -/
structure GmmModel where
  predict : ℚ → ℕ
  weights : ℕ → ℚ
  means : ℕ → ℚ
  stds : ℕ → ℚ

/-- The loop of GmmFense.__get_fense (gmmfense.py lines 70-92) over the
sorted data, carrying the indexset of clusters already seen and the
accumulated probability; yields the (strict, normal) pair, or none for
the implicit Python None when the accumulated weight never exceeds the
threshold. -/
def gmm_fense_loop (g : GmmModel) (thresh span : ℚ) (is_upper : Bool) :
    List ℕ → ℚ → List ℚ → Option (ℚ × ℚ)
  | _, _, [] => none
  | seen, prob, x :: rest =>
    let index := g.predict x
    if index ∈ seen then gmm_fense_loop g thresh span is_upper seen prob rest
    else
      let seen2 := index :: seen
      let prob2 := prob + g.weights index
      if prob2 > thresh then
        let mean := g.means index
        let std := g.stds index
        let normal := if is_upper then mean + std * span else mean - std * span
        some (x, normal)
      else gmm_fense_loop g thresh span is_upper seen2 prob2 rest

/-- GmmFense.__get_fense (gmmfense.py lines 58-92): ascending sort for
a lower fence, descending (the [::-1] reversal of the ascending sort)
for an upper fence, then the loop with empty indexset and probability
zero. -/
def gmm_get_fense (g : GmmModel) (thresh : ℚ) (data : List ℚ) (is_upper : Bool) (span : ℚ) :
    Option (ℚ × ℚ) :=
  let sdata := if is_upper then (sortAsc data).reverse else sortAsc data
  gmm_fense_loop g thresh span is_upper [] 0 sdata

/-- GmmFense.get_strict_fense (gmmfense.py lines 104-119).  In Python,
unpacking the None of a failed walk raises TypeError; modeled as
none. -/
def get_strict_fense (g : GmmModel) (thresh : ℚ) (data : List ℚ) (is_upper : Bool) (span : ℚ) :
    Option ℚ :=
  match gmm_get_fense g thresh data is_upper span with
  | none => none
  | some (strict, normal) =>
    if is_upper then some (if normal < strict then normal else strict)
    else some (if normal > strict then normal else strict)

/-- Spec model (4.A strategy 3): walking the sorted sample and
accumulating the mixture weights of newly encountered component
clusters, the sample value at which the accumulated weight first
exceeds the probability threshold p. -/
def spec_first_exceed (g : GmmModel) (p : ℚ) : List ℕ → ℚ → List ℚ → Option ℚ
  | _, _, [] => none
  | seen, acc, x :: rest =>
    let c := g.predict x
    if c ∈ seen then spec_first_exceed g p seen acc rest
    else if acc + g.weights c > p then some x
    else spec_first_exceed g p (c :: seen) (acc + g.weights c) rest

/-- Spec model: the normal candidate μ_c ± s·σ_c of cluster c. -/
def spec_normal_candidate (g : GmmModel) (span : ℚ) (is_upper : Bool) (c : ℕ) : ℚ :=
  if is_upper then g.means c + span * g.stds c else g.means c - span * g.stds c

/-- Spec model of the GMM-strict fence: the min (upper) / max (lower)
of the strict candidate and the normal candidate of the strict
candidate's cluster. -/
def spec_strict_fense (g : GmmModel) (p : ℚ) (data : List ℚ) (is_upper : Bool) (span : ℚ) :
    Option ℚ :=
  let sdata := if is_upper then (sortAsc data).reverse else sortAsc data
  (spec_first_exceed g p [] 0 sdata).map (fun v =>
    let normal := spec_normal_candidate g span is_upper (g.predict v)
    if is_upper then min v normal else max v normal)

/-- A container record as seen by the aggressor-attribution loop of
set_metrics (eris.py): the container id and display name. -/
structure AttrCon where
  cid : String
  name : String

/-- The per-kind delta dispatch of set_metrics (eris.py lines 169-174).
Every reachable branch fails by Python attribute lookup: for LLC the
call container.get_llcoccupany_delta() names a method Container does
not define (container.py line 87 defines getLLCOccupanyDelta), and for
every other kind the comparison contention_type == Contention.MB
evaluates Contention.MB, a member the enum does not have (container.py
line 34 defines MEM_BW).  The AttributeError is modeled as
Except.error. -/
def attribution_delta (kind : Contention) (_con : AttrCon) : Except String ℚ :=
  if kind = Contention.LLC then
    Except.error "AttributeError: Container object has no attribute get_llcoccupany_delta"
  else
    Except.error "AttributeError: type object Contention has no attribute MB"

/-- resource_delta_max starts at -np.Inf (eris.py line 162), modeled as
none; this predicate is "delta exceeds the running maximum". -/
def delta_max_lt (dmax : Option ℚ) (delta : ℚ) : Bool :=
  match dmax with
  | none => true
  | some d => decide (d < delta)

/-- The suspect-selection loop of set_metrics (eris.py lines 162-178):
skip the contended container itself, compute the kind delta of every
other record, and keep the name of the record with the largest positive
delta; the suspect stays "unknown" when no positive delta was seen. -/
def find_suspect (kind : Contention) (contended_cid : String) :
    List AttrCon → Option ℚ → String → Except String String
  | [], _, suspect => Except.ok suspect
  | con :: rest, dmax, suspect =>
    if con.cid = contended_cid then find_suspect kind contended_cid rest dmax suspect
    else
      match attribution_delta kind con with
      | Except.error e => Except.error e
      | Except.ok delta =>
        if 0 < delta ∧ delta_max_lt dmax delta = true then
          find_suspect kind contended_cid rest (some delta) con.name
        else find_suspect kind contended_cid rest dmax suspect

/-!
Theorems.
-/

theorem detect_walk_eq_spec (m : Metrics) (u : ℚ) :
    ∀ (rest : List Thresh) (cur : Thresh), rest ≠ [] → ¬ u < cur.util_end →
      detect_walk m u (some cur) rest = detect_in_bin m (spec_walk u cur rest) := by
  intro rest
  induction rest with
  | nil => intro cur h _; exact absurd rfl h
  | cons b rest ih =>
    intro cur _ hcur
    by_cases hb : u < b.util_start
    · simp [detect_walk, spec_walk, hb, hcur]
    · by_cases hend : u < b.util_end
      · cases rest with
        | nil => simp [detect_walk, spec_walk, hb, hcur, hend]
        | cons c cs => simp [detect_walk, spec_walk, hb, hcur, hend]
      · cases rest with
        | nil => simp [detect_walk, spec_walk, hb, hcur, hend]
        | cons c cs =>
          have hrec := ih b (by simp) hend
          have hcond : ¬ (u < b.util_end ∨ (c :: cs).isEmpty = true) := by simp [hend]
          rw [detect_walk, spec_walk]
          simp only [if_neg hb, if_neg hcond, if_neg hcur]
          exact hrec

/-- C2: Container.contention_detect returns no event when the bin list
is empty or the current utilization is strictly below the first bin's
util_start; otherwise it classifies (via __detect_in_bin) within the
applicable bin of the spec: the first bin with util_start ≤ u <
util_end, the immediately preceding bin when u falls in a gap, and the
last bin for every u at or above its util_start. -/
theorem contention_detect_eq_spec (c : ContainerState) :
    contention_detect c =
      (spec_applicable_bin c.utils c.thresh).bind (fun b => detect_in_bin c.metrics b) := by
  rcases c with ⟨bins, u, m⟩
  cases bins with
  | nil => simp [contention_detect, spec_applicable_bin]
  | cons b rest =>
    simp only [contention_detect, List.isEmpty_cons, spec_applicable_bin]
    by_cases hb : u < b.util_start
    · simp [detect_walk, hb]
    · by_cases hend : u < b.util_end
      · cases rest with
        | nil => simp [detect_walk, spec_walk, hb, hend]
        | cons c cs => simp [detect_walk, spec_walk, hb, hend]
      · cases rest with
        | nil => simp [detect_walk, spec_walk, hb, hend]
        | cons c cs =>
          have hrec := detect_walk_eq_spec m u (c :: cs) b (by simp) hend
          have hcond : ¬ (u < b.util_end ∨ (c :: cs).isEmpty = true) := by simp [hend]
          rw [detect_walk]
          simp only [if_neg hb, if_neg hcond, Option.some_bind]
          exact hrec

/-- C1: in-bin classification returns LLC when CPI and MPKI both exceed
their bin thresholds; otherwise MEM_BW when CPI exceeds its threshold
and MBL+MBR is below the bandwidth threshold; otherwise UNKN when CPI
exceeds its threshold; otherwise no event.  No event is emitted unless
CPI exceeds the bin's CPI threshold, and LLC takes precedence over
MEM_BW (the LLC case holds with no condition on bandwidth). -/
theorem detect_in_bin_classification (m : Metrics) (t : Thresh) :
    (m.CPI > t.cpi ∧ m.L3MPKI > t.mpki →
        detect_in_bin m t = some Contention.LLC) ∧
    (m.CPI > t.cpi ∧ ¬ m.L3MPKI > t.mpki ∧ m.MBL + m.MBR < t.mb →
        detect_in_bin m t = some Contention.MEM_BW) ∧
    (m.CPI > t.cpi ∧ ¬ m.L3MPKI > t.mpki ∧ ¬ m.MBL + m.MBR < t.mb →
        detect_in_bin m t = some Contention.UNKN) ∧
    (¬ m.CPI > t.cpi → detect_in_bin m t = none) := by
  refine ⟨?_, ?_, ?_, ?_⟩
  · rintro ⟨h1, h2⟩; simp [detect_in_bin, h1, h2]
  · rintro ⟨h1, h2, h3⟩; simp [detect_in_bin, h1, h2, h3]
  · rintro ⟨h1, h2, h3⟩; simp [detect_in_bin, h1, h2, h3]
  · intro h1; simp [detect_in_bin, h1]

/-- C1 witness: spec scenario 2 — bin {400,500, cpi 2, mpki 5, mb 1000}
and live sample {CPI 3, MPKI 1, MBL 100, MBR 200} give a MEM_BW event. -/
theorem detect_in_bin_classification_witness :
    detect_in_bin ⟨3, 1, 100, 200⟩ ⟨400, 500, 2, 5, 1000⟩ = some Contention.MEM_BW :=
  (detect_in_bin_classification ⟨3, 1, 100, 200⟩ ⟨400, 500, 2, 5, 1000⟩).2.1
    ⟨by norm_num, by norm_num, by norm_num⟩

/-- C3: on detected=true the counter resets to 0 and, unless the
resource is already at MIN, the level is set to MIN and budgeting is
applied to the BE containers; on detected=false with hold=true or level
FULL nothing changes; on detected=false, hold=false (level not FULL)
the counter is incremented and exactly when it reaches the threshold T
it is reset, the level is increased by one step and budgeting is
applied.  The hypothesis cyc_cnt < T is the controller's reachable
invariant (the counter is reset whenever it reaches T). -/
theorem naive_update_cases (T : ℕ) (be : List String) (s : NCState) (h : Bool)
    (hcnt : s.cyc_cnt < T) :
    ((naive_update T be s true h).1.cyc_cnt = 0 ∧
      (s.quota_level = BUGET_LEV_MIN →
        naive_update T be s true h = ({ s with cyc_cnt := 0 }, none)) ∧
      (s.quota_level ≠ BUGET_LEV_MIN →
        naive_update T be s true h = (⟨0, BUGET_LEV_MIN⟩, some be))) ∧
    ((h = true ∨ s.quota_level = BUGET_LEV_FULL) →
      naive_update T be s false h = (s, none)) ∧
    (h = false → s.quota_level ≠ BUGET_LEV_FULL →
      (s.cyc_cnt + 1 = T →
        naive_update T be s false h = (⟨0, increase_level s.quota_level⟩, some be)) ∧
      (s.cyc_cnt + 1 ≠ T →
        naive_update T be s false h = (⟨s.cyc_cnt + 1, s.quota_level⟩, none))) := by
  refine ⟨⟨?_, ?_, ?_⟩, ?_, ?_⟩
  · by_cases hmin : s.quota_level = BUGET_LEV_MIN <;> simp [naive_update, hmin]
  · intro hmin; simp [naive_update, hmin]
  · intro hmin; simp [naive_update, hmin]
  · intro hh
    rcases hh with hh | hh
    · simp [naive_update, hh]
    · by_cases hhold : h = true <;> simp [naive_update, hhold, hh]
  · intro hh hfull
    constructor
    · intro hreach
      simp [naive_update, hh, hfull, hreach.le, hreach]
    · intro hmiss
      have hlt : ¬ s.cyc_cnt + 1 ≥ T := by omega
      simp [naive_update, hh, hfull, hlt]

/-- C3 witness: T = 3 from counter 2 at level 5, quiet input: the
counter resets, the level increases one step and budgeting fires. -/
theorem naive_update_cases_witness :
    naive_update 3 ["be0"] ⟨2, 5⟩ false false = (⟨0, increase_level 5⟩, some ["be0"]) :=
  ((naive_update_cases 3 ["be0"] ⟨2, 5⟩ false (by norm_num)).2.2 rfl (by decide)).1 rfl

theorem nc_run_add (T : ℕ) (be : List String) (m n : ℕ) :
    ∀ s : NCState, nc_run T be (m + n) s = nc_run T be n (nc_run T be m s) := by
  induction m with
  | zero => intro s; simp [nc_run]
  | succ m ih =>
    intro s
    have : m + 1 + n = (m + n) + 1 := by omega
    rw [this, nc_run, nc_run, ih]

theorem nc_run_quiet (T : ℕ) (be : List String) :
    ∀ (j c : ℕ) (L : ℤ), c + j < T → L ≠ BUGET_LEV_FULL →
      nc_run T be j ⟨c, L⟩ = ⟨c + j, L⟩ := by
  intro j
  induction j with
  | zero => intro c L _ _; simp [nc_run]
  | succ j ih =>
    intro c L hlt hL
    have hstep : (naive_update T be ⟨c, L⟩ false false).1 = ⟨c + 1, L⟩ := by
      have hge : ¬ c + 1 ≥ T := by omega
      simp [naive_update, hL, hge]
    rw [nc_run, hstep, ih (c + 1) L (by omega) hL]
    congr 1
    omega

theorem nc_run_period (T : ℕ) (be : List String) (L : ℤ) (hT : 1 ≤ T)
    (hL : L ≠ BUGET_LEV_FULL) :
    nc_run T be T ⟨0, L⟩ = ⟨0, increase_level L⟩ := by
  obtain ⟨j, rfl⟩ : ∃ j, T = j + 1 := ⟨T - 1, by omega⟩
  rw [nc_run_add (j + 1) be j 1 ⟨0, L⟩, nc_run_quiet (j + 1) be j 0 L (by omega) hL]
  have hge : j + 1 ≥ j + 1 := le_refl _
  simp [nc_run, naive_update, hL, hge]

theorem nc_run_levels (T : ℕ) (be : List String) (hT : 1 ≤ T) :
    ∀ k : ℕ, k ≤ 20 →
      nc_run T be (k * T) ⟨0, BUGET_LEV_MIN⟩ =
        ⟨0, if k = 20 then BUGET_LEV_FULL else (k : ℤ)⟩ := by
  intro k
  induction k with
  | zero => intro _; simp [nc_run, BUGET_LEV_MIN]
  | succ k ih =>
    intro hk
    have hk20 : k ≠ 20 := by omega
    have hstep : (k + 1) * T = k * T + T := by ring
    rw [hstep, nc_run_add T be (k * T) T _, ih (by omega), if_neg hk20,
      nc_run_period T be (k : ℤ) hT (by simp [BUGET_LEV_FULL])]
    by_cases h20 : k + 1 = 20
    · have heq : (k : ℤ) + 1 = BUGET_LEV_MAX := by simp [BUGET_LEV_MAX]; omega
      simp [increase_level, heq, h20]
    · have hne : (k : ℤ) + 1 ≠ BUGET_LEV_MAX := by
        simp only [BUGET_LEV_MAX]
        omega
      simp only [increase_level, if_neg hne, if_neg h20, NCState.mk.injEq, true_and]
      omega

/-- C9: starting at MIN with counter 0, after k·T quiet updates
(detected=false, hold=false, cycle threshold T ≥ 1) the level is
min(k, 20) for every k before the FULL transition (k < 20), and at
k = 20 the level transitions to FULL. -/
theorem nc_run_level_min (T k : ℕ) (be : List String) (hT : 1 ≤ T) (hk : k < 20) :
    (nc_run T be (k * T) ⟨0, BUGET_LEV_MIN⟩).quota_level = min (k : ℤ) 20 ∧
    (nc_run T be (20 * T) ⟨0, BUGET_LEV_MIN⟩).quota_level = BUGET_LEV_FULL := by
  constructor
  · rw [nc_run_levels T be hT k (by omega), if_neg (by omega)]
    simp
    omega
  · rw [nc_run_levels T be hT 20 (by omega)]
    simp

/-- C9 witness: with T = 1, after one quiet update the level is
min(1, 20) = 1, and after twenty the level is FULL. -/
theorem nc_run_level_min_witness :
    (nc_run 1 [] (1 * 1) ⟨0, BUGET_LEV_MIN⟩).quota_level = min (1 : ℤ) 20 ∧
    (nc_run 1 [] (20 * 1) ⟨0, BUGET_LEV_MIN⟩).quota_level = BUGET_LEV_FULL :=
  nc_run_level_min 1 1 [] (by norm_num) (by norm_num)

/-- C10: increase_level maps FULL (−1) to MIN (0), the hardest
throttle: FULL is not a fixed point, and it is the is_full_level guard
in NaiveController.update (naivectrl.py line 51) that keeps a FULL
resource unchanged on a quiet (detected=false, hold=false) update. -/
theorem increase_level_full_wraps_to_min :
    increase_level BUGET_LEV_FULL = BUGET_LEV_MIN ∧
    increase_level BUGET_LEV_FULL ≠ BUGET_LEV_FULL ∧
    ∀ (T : ℕ) (be : List String) (s : NCState), s.quota_level = BUGET_LEV_FULL →
      naive_update T be s false false = (s, none) := by
  refine ⟨by simp [increase_level, BUGET_LEV_FULL, BUGET_LEV_MIN, BUGET_LEV_MAX],
    by simp [increase_level, BUGET_LEV_FULL, BUGET_LEV_MIN, BUGET_LEV_MAX], ?_⟩
  intro T be s hfull
  simp [naive_update, hfull]

/-- C10 witness: a FULL resource is left untouched by a quiet update. -/
theorem increase_level_full_wraps_to_min_witness :
    naive_update 3 ["be0"] ⟨0, BUGET_LEV_FULL⟩ false false = (⟨0, BUGET_LEV_FULL⟩, none) :=
  increase_level_full_wraps_to_min.2.2 3 ["be0"] ⟨0, BUGET_LEV_FULL⟩ rfl

/-- C8 counterexample: with lc_max_util = 1 the quota_max is 1000 > 0,
yet the emitted quota at level 0 (MIN, fixed 1000) exceeds the quota at
level 1 (1·⌊50⌋ = 50): quota_max > 0 alone does not make the platform
quota non-decreasing over [0, 20). -/
theorem cpu_quota_not_monotone_counterexample :
    0 < quota_max 1 ∧ (0 : ℤ) ≤ 0 ∧ (0 : ℤ) ≤ 1 ∧ (1 : ℤ) < 20 ∧
    ¬ cpu_quota_update (quota_step 1) 0 ≤ cpu_quota_update (quota_step 1) 1 := by
  refine ⟨by norm_num [quota_max, CPU_QUOTA_PERCENT, CPU_QUOTA_CORE],
    by norm_num, by norm_num, by norm_num, ?_⟩
  have hstep : quota_step 1 = 50 := by
    norm_num [quota_step, quota_max, CPU_QUOTA_PERCENT, CPU_QUOTA_CORE, BUGET_LEV_MAX]
  rw [hstep]
  have htr : pytrunc 50 = 50 := by
    rw [pytrunc, if_pos (by norm_num)]
    norm_num [Int.floor_eq_iff]
  norm_num [cpu_quota_update, htr, BUGET_LEV_FULL, BUGET_LEV_MIN, CPU_QUOTA_MIN]

/-- C8 amended: once quota_max ≥ 20000 (equivalently quota_step ≥ 1000,
so that ⌊quota_step⌋ is at least the fixed MIN quota 1000), the
platform quota emitted by CpuQuota.update is non-decreasing in the
level over [0, 20): for all 0 ≤ L1 ≤ L2 < 20, quota(L1) ≤ quota(L2),
with level 0 mapped to 1000 and level L > 0 mapped to L·⌊quota_step⌋. -/
theorem cpu_quota_monotone (u : ℚ) (L1 L2 : ℤ) (hmax : 20000 ≤ quota_max u)
    (h0 : 0 ≤ L1) (h12 : L1 ≤ L2) (h2 : L2 < 20) :
    cpu_quota_update (quota_step u) L1 ≤ cpu_quota_update (quota_step u) L2 := by
  have hstep : (1000 : ℚ) ≤ quota_step u := by
    rw [quota_step, BUGET_LEV_MAX]
    rw [le_div_iff₀ (by norm_num)]
    push_cast
    linarith
  have hfl : (1000 : ℤ) ≤ pytrunc (quota_step u) := by
    rw [pytrunc, if_pos (by linarith)]
    exact Int.le_floor.mpr (by exact_mod_cast hstep)
  have hflnn : (0 : ℤ) ≤ pytrunc (quota_step u) := le_trans (by norm_num) hfl
  have hn1 : L1 ≠ BUGET_LEV_FULL := by rw [BUGET_LEV_FULL]; omega
  have hn2 : L2 ≠ BUGET_LEV_FULL := by rw [BUGET_LEV_FULL]; omega
  rw [cpu_quota_update, cpu_quota_update, if_neg hn1, if_neg hn2]
  by_cases e1 : L1 = BUGET_LEV_MIN
  · by_cases e2 : L2 = BUGET_LEV_MIN
    · simp [e1, e2]
    · rw [if_pos e1, if_neg e2, CPU_QUOTA_MIN]
      have hL2 : 1 ≤ L2 := by rw [BUGET_LEV_MIN] at e2; omega
      calc (1000 : ℤ) = 1 * 1000 := by ring
        _ ≤ L2 * pytrunc (quota_step u) :=
            mul_le_mul hL2 hfl (by norm_num) (by omega)
  · have e2 : L2 ≠ BUGET_LEV_MIN := by
      rw [BUGET_LEV_MIN] at e1 ⊢
      omega
    rw [if_neg e1, if_neg e2]
    exact mul_le_mul_of_nonneg_right h12 hflnn

/-- C8 witness: at lc_max_util = 20 the quota_max is exactly 20000, and
the quota at level 0 is ≤ the quota at level 1. -/
theorem cpu_quota_monotone_witness :
    cpu_quota_update (quota_step 20) 0 ≤ cpu_quota_update (quota_step 20) 1 :=
  cpu_quota_monotone 20 0 1
    (by norm_num [quota_max, CPU_QUOTA_PERCENT, CPU_QUOTA_CORE])
    (by norm_num) (by norm_num) (by norm_num)

theorem insertSorted_length (x : ℚ) (l : List ℚ) :
    (insertSorted x l).length = l.length + 1 := by
  induction l with
  | nil => rfl
  | cons y ys ih =>
    by_cases h : x ≤ y <;> simp [insertSorted, h, ih]

theorem sortAsc_length (l : List ℚ) : (sortAsc l).length = l.length := by
  induction l with
  | nil => rfl
  | cons x xs ih => simp [sortAsc, insertSorted_length, List.foldr] at *; omega

theorem pytrunc_natCast_div_four (m : ℕ) :
    pytrunc ((m : ℚ) / 4) = (m / 4 : ℕ) := by
  have hnn : (0 : ℚ) ≤ (m : ℚ) / 4 := by positivity
  rw [pytrunc, if_pos hnn, Int.floor_eq_iff]
  have h1 : m / 4 * 4 ≤ m := Nat.div_mul_le_self m 4
  have h2 : m < (m / 4 + 1) * 4 := by omega
  constructor
  · rw [le_div_iff₀ (by norm_num : (0 : ℚ) < 4)]
    exact_mod_cast h1
  · rw [div_lt_iff₀ (by norm_num : (0 : ℚ) < 4)]
    push_cast
    exact_mod_cast h2

theorem get_quartile_eq_spec (t : ℚ) (sample : List ℚ) (up : Bool)
    (h : sample ≠ []) :
    get_quartile t sample up = some (spec_quartile t sample up) := by
  have hlen : (sortAsc sample).length = sample.length := sortAsc_length sample
  have hpos : 0 < sample.length := List.length_pos.mpr h
  have hc3 : ((sortAsc sample).length : ℚ) * 3 / 4 =
      ((3 * (sortAsc sample).length : ℕ) : ℚ) / 4 := by push_cast; ring
  have hi1 : (pytrunc (((sortAsc sample).length : ℚ) / 4)).toNat = sample.length / 4 := by
    rw [pytrunc_natCast_div_four, hlen]
    exact Int.toNat_natCast _
  have hi3 : (pytrunc (((sortAsc sample).length : ℚ) * 3 / 4)).toNat =
      3 * sample.length / 4 := by
    rw [hc3, pytrunc_natCast_div_four, hlen]
    exact Int.toNat_natCast _
  have hb1 : sample.length / 4 < (sortAsc sample).length := by rw [hlen]; omega
  have hb3 : 3 * sample.length / 4 < (sortAsc sample).length := by rw [hlen]; omega
  have e1 : (sortAsc sample)[sample.length / 4]? =
      some ((sortAsc sample).getD (sample.length / 4) 0) := by
    simp [List.getD_eq_getElem?_getD, List.getElem?_eq_getElem hb1]
  have e3 : (sortAsc sample)[3 * sample.length / 4]? =
      some ((sortAsc sample).getD (3 * sample.length / 4) 0) := by
    simp [List.getD_eq_getElem?_getD, List.getElem?_eq_getElem hb3]
  rw [get_quartile]
  simp only [hi1, hi3, e1, e3]
  rw [spec_quartile]
  cases up <;> simp <;> exact Or.inl (by ring)

/-- C5: for every nonempty sample and threshold scalar t, the quartile
fence sorts the sample, takes q1 at 0-based index ⌊n/4⌋ and q3 at index
⌊3n/4⌋, and returns q3 + (q3−q1)·(3t/4 − 2/3) for an upper fence and
q1 − (q3−q1)·(3t/4 − 2/3) for a lower fence. -/
theorem get_quartile_spec (t : ℚ) (sample : List ℚ) (up : Bool)
    (h : sample ≠ []) :
    get_quartile t sample up = some (spec_quartile t sample up) :=
  get_quartile_eq_spec t sample up h

/-- C5 witness: the sample [1,2,3,4,5] with the default threshold 4. -/
theorem get_quartile_spec_witness :
    get_quartile 4 [1, 2, 3, 4, 5] true = some (spec_quartile 4 [1, 2, 3, 4, 5] true) :=
  get_quartile_spec 4 [1, 2, 3, 4, 5] true (by simp)

/-- C7 counterexample: the quartile strategy of get_fense raises on the
empty sample (IndexError from positional iloc indexing, modeled as
none) instead of returning a sentinel; and on a degenerate sample (all
elements identical) it returns the common value itself, which the
online detector can trigger on (CPI 6 against the resulting fence 5
yields an UNKN event) — not a never-triggering sentinel. -/
theorem get_quartile_empty_counterexample :
    get_quartile 4 [] true = none ∧
    get_quartile 4 [5, 5, 5, 5] true = some 5 ∧
    detect_in_bin ⟨6, 0, 0, 0⟩ ⟨0, 0, 5, 0, 0⟩ = some Contention.UNKN := by
  refine ⟨rfl, ?_, ?_⟩
  · norm_num [get_quartile, sortAsc, insertSorted, pytrunc, Int.toNat]
  · norm_num [detect_in_bin]

/-- C7 amended: fence estimation under the quartile strategy fails on
an empty sample by raising (modeled: returning no value) — the builder
wraps fence construction in an exception handler and skips the bin — and
returns a fence value for every nonempty sample, degenerate ones
included. -/
theorem get_quartile_raise_behavior (t : ℚ) (up : Bool) (sample : List ℚ) :
    get_quartile t [] up = none ∧
    (sample ≠ [] → (get_quartile t sample up).isSome = true) := by
  constructor
  · rfl
  · intro h
    rw [get_quartile_eq_spec t sample up h]
    rfl

/-- C7 witness: empty sample versus the one-element sample [1]. -/
theorem get_quartile_raise_behavior_witness :
    get_quartile 4 [] true = none ∧ (get_quartile 4 [1] true).isSome = true :=
  ⟨(get_quartile_raise_behavior 4 true [1]).1,
   (get_quartile_raise_behavior 4 true [1]).2 (by simp)⟩

theorem gmm_fense_loop_eq_first_exceed (g : GmmModel) (p span : ℚ) (up : Bool) :
    ∀ (l : List ℚ) (seen : List ℕ) (acc : ℚ),
      gmm_fense_loop g p span up seen acc l =
        (spec_first_exceed g p seen acc l).map
          (fun v => (v, spec_normal_candidate g span up (g.predict v))) := by
  intro l
  induction l with
  | nil => intro seen acc; rfl
  | cons x rest ih =>
    intro seen acc
    by_cases hseen : g.predict x ∈ seen
    · simp only [gmm_fense_loop, spec_first_exceed, if_pos hseen]
      exact ih seen acc
    · by_cases hp : acc + g.weights (g.predict x) > p
      · simp only [gmm_fense_loop, spec_first_exceed, if_neg hseen, if_pos hp,
          Option.map_some]
        refine congrArg some (Prod.ext rfl ?_)
        cases up <;> simp [spec_normal_candidate] <;> ring
      · simp only [gmm_fense_loop, spec_first_exceed, if_neg hseen, if_neg hp]
        exact ih _ _

theorem if_gt_eq_max (a b : ℚ) : (if b > a then b else a) = max a b := by
  rcases le_or_lt b a with h | h
  · rw [if_neg (not_lt.mpr h), max_eq_left h]
  · rw [if_pos h, max_eq_right h.le]

theorem if_lt_eq_min (a b : ℚ) : (if b < a then b else a) = min a b := by
  rcases le_or_lt a b with h | h
  · rw [if_neg (not_lt.mpr h), min_eq_left h]
  · rw [if_pos h, min_eq_right h.le]

/-- C6: for every mixture model, probability threshold, sample and
span, the strict fence equals min(strict, normal) for an upper fence
and max(strict, normal) for a lower fence, where the strict candidate
is the sorted-walk (descending for upper, ascending for lower) value at
which the accumulated weight of newly encountered clusters first
exceeds p, and the normal candidate is that cluster's mean ± span·std;
a sample on which the walk fails yields none on both sides. -/
theorem get_strict_fense_spec (g : GmmModel) (p : ℚ) (data : List ℚ) (up : Bool) (span : ℚ) :
    get_strict_fense g p data up span = spec_strict_fense g p data up span := by
  rw [get_strict_fense, spec_strict_fense, gmm_get_fense,
    gmm_fense_loop_eq_first_exceed]
  cases hfe : spec_first_exceed g p [] 0
      (if up then (sortAsc data).reverse else sortAsc data) with
  | none => simp
  | some v =>
    simp only [Option.map_some]
    cases up
    · simp only [Bool.false_eq_true, if_false]
      exact congrArg some (if_gt_eq_max v (spec_normal_candidate g span false (g.predict v)))
    · simp only [if_true]
      exact congrArg some (if_lt_eq_min v (spec_normal_candidate g span true (g.predict v)))

/-- C4 (code-bug evidence): whenever a contention event of kind
MEM_BW, TDP or LLC fires and any other live container exists, the
attribution loop raises AttributeError — the code refers to
Contention.MB and to snake_case delta methods that the Container class
does not define — instead of naming the maximum-positive-delta
suspect. -/
theorem find_suspect_raises :
    find_suspect Contention.MEM_BW "lc0" [⟨"be0", "be"⟩] none "unknown" =
      Except.error "AttributeError: type object Contention has no attribute MB" ∧
    find_suspect Contention.TDP "lc0" [⟨"be0", "be"⟩] none "unknown" =
      Except.error "AttributeError: type object Contention has no attribute MB" ∧
    find_suspect Contention.LLC "lc0" [⟨"be0", "be"⟩] none "unknown" =
      Except.error "AttributeError: Container object has no attribute get_llcoccupany_delta" :=
  ⟨rfl, rfl, rfl⟩

end Eris
